import Mathlib

/-!
# Verification of the instasave bot pipeline (src/main.py)

A shallow embedding of the size-adaptive delivery pipeline of the bot:
configuration constants, the MB-measuring helper, the URL classifiers,
the extraction-option builder, the transcode adapter, the shrink ladder,
the delivery selector, the request handler, and the admission gate.

External effects (ffmpeg runs, yt-dlp extraction, transport sends) are
modelled as oracle inputs describing the outcome of each external call;
the definitions then mirror the control flow of the Python source.
-/

namespace InstaSave

/-! ## Configuration constants (src/main.py lines 28-34) -/

/-- Constant `MAX_HEIGHT_TARGET = 480` (line 28). -/
def MAX_HEIGHT_TARGET : ℕ := 480

/-- Constant `TELEGRAM_LIMIT_MB = 2000` (line 29), the hard delivery ceiling. -/
def TELEGRAM_LIMIT_MB : ℕ := 2000

/-- Constant `SAFE_LIMIT_MB = 1900` (line 30), the safe threshold. -/
def SAFE_LIMIT_MB : ℕ := 1900

/-- Constant `SEND_AS_VIDEO_THRESHOLD_MB = 50` (line 31). -/
def SEND_AS_VIDEO_THRESHOLD_MB : ℕ := 50

/-- Capacity of `CONCURRENCY = asyncio.Semaphore(2)` (line 34). -/
def CONCURRENCY : ℕ := 2

/-! ## `human_mb` (lines 60-61)

`human_mb(b) = round(b / (1024*1024), 2)`.  For `b < 2^53` the float
division is exact (a dyadic rational), and Python `round(x, 2)` returns the
nearest multiple of 1/100 with ties to even.  We model the result exactly
as a rational: the number of centi-megabytes rounded half-to-even, divided
by 100. -/

/-- Round `n / d` to the nearest natural, ties to even. -/
def roundHalfEven (n d : ℕ) : ℕ :=
  let q := n / d
  let r := n % d
  if 2 * r < d then q
  else if d < 2 * r then q + 1
  else if q % 2 = 0 then q else q + 1

/-- Function `human_mb(bytes_)`: size in MB rounded to two decimals, as an exact
rational. -/
def human_mb (bytes_ : ℕ) : ℚ :=
  (roundHalfEven (bytes_ * 100) (1024 * 1024) : ℚ) / 100

/-! ## URL recognition (lines 40-58)

`YOUTUBE_RE = (https?://)?(www\.)?(youtube\.com/(watch\?v=|shorts/)|youtu\.be/)`
and `INSTAGRAM_RE = (https?://)?(www\.)?instagram\.com/(reel|p|tv)/`, both
case-insensitive, used with `re.search`.  Because every group before the
mandatory core is optional, `re.search` succeeds exactly when the string
contains one of the mandatory cores as a (case-insensitive) substring, so
the searches are embedded as substring tests. -/

/-- Does `hay` start with `pat`? (over lists of characters) -/
def startsWithChars : List Char → List Char → Bool
  | [], _ => true
  | _ :: _, [] => false
  | p :: ps, h :: hs => p == h && startsWithChars ps hs

/-- Does the haystack contain `pat` as a contiguous substring? -/
def hasSubstring (pat : List Char) : List Char → Bool
  | [] => startsWithChars pat []
  | c :: cs => startsWithChars pat (c :: cs) || hasSubstring pat cs

/-- Case-insensitive substring search, modelling `re.search` for a regex
whose only mandatory part is the literal `pat`. -/
def searchCI (pat : String) (s : String) : Bool :=
  hasSubstring (pat.data.map Char.toLower) (s.data.map Char.toLower)

/-- Search `YOUTUBE_RE.search(url)` as a Boolean (lines 40-43). -/
def YOUTUBE_RE_search (url : String) : Bool :=
  searchCI ("youtube.com/watch?v=") url ||
  searchCI ("youtube.com/shorts/") url ||
  searchCI ("youtu.be/") url

/-- Search `INSTAGRAM_RE.search(url)` as a Boolean (line 44). -/
def INSTAGRAM_RE_search (url : String) : Bool :=
  searchCI ("instagram.com/reel/") url ||
  searchCI ("instagram.com/p/") url ||
  searchCI ("instagram.com/tv/") url

/-- Predicate `is_supported_url` (lines 50-51). -/
def is_supported_url (url : String) : Bool :=
  YOUTUBE_RE_search url || INSTAGRAM_RE_search url

/-- Classifier `platform_name` (lines 53-58). -/
def platform_name (url : String) : String :=
  if YOUTUBE_RE_search url then "YouTube"
  else if INSTAGRAM_RE_search url then "Instagram"
  else "Unknown"

/-- The `from_instagram=(plat == "Instagram")` flag computed by
`handle_url` (line 208). -/
def from_instagram (url : String) : Bool :=
  if platform_name url = "Instagram" then true else false

/-! ## `build_ydl_opts` (lines 71-98) -/

/-- The yt-dlp option dictionary built by `build_ydl_opts`; each field is
one key of the Python dict, `cookies` being the optional key. -/
structure YdlOpts where
  outtmpl : String
  format : String
  merge_output_format : String
  noplaylist : Bool
  quiet : Bool
  no_warnings : Bool
  prefer_ffmpeg : Bool
  retries : ℕ
  cookies : Option String
deriving DecidableEq

/-- The four-alternative format chain (lines 79-84). -/
def fmt_chain (max_h : ℕ) : String :=
  "bv*[height<=" ++ toString max_h ++ "][ext=mp4]+ba[ext=m4a]" ++
  "/b[height<=" ++ toString max_h ++ "][ext=mp4]" ++
  "/best[ext=mp4]" ++
  "/best"

/-- Builder `build_ydl_opts(tmp_dir, from_instagram, max_h)`.  The module-level
`IG_COOKIES_PATH` (line 23, an environment value) is passed explicitly;
the Python default `max_h = MAX_HEIGHT_TARGET` is supplied by callers.
`cookies` is set iff `from_instagram and IG_COOKIES_PATH` (lines 96-97),
string truthiness being non-emptiness. -/
def build_ydl_opts (tmp_dir : String) (from_ig : Bool) (ig_cookies_path : String) (max_h : ℕ) : YdlOpts :=
  { outtmpl := tmp_dir ++ "/%(title).200B.%(ext)s",
    format := fmt_chain max_h,
    merge_output_format := "mp4",
    noplaylist := true,
    quiet := true,
    no_warnings := true,
    prefer_ffmpeg := true,
    retries := 3,
    cookies := if from_ig && !ig_cookies_path.isEmpty then some ig_cookies_path else none }

/-! ## Transcode adapter `ffmpeg_compress` (lines 100-117)

The external engine's behaviour on one invocation is an oracle value:
its exit code, whether the destination file exists afterwards, and the
destination file's size. -/

/-- Outcome of one external ffmpeg invocation. -/
structure FfmpegOutcome where
  returncode : ℤ
  dstExists : Bool
  dstSize : ℕ
deriving DecidableEq

/-- Adapter `ffmpeg_compress`: raises (`RuntimeError("ffmpeg compress failed")`)
iff `proc.returncode != 0 or not dst.exists()` (line 116). -/
def ffmpeg_compress (o : FfmpegOutcome) : Except Unit Unit :=
  if o.returncode ≠ 0 ∨ o.dstExists = false then Except.error () else Except.ok ()

/-! ## Shrink ladder `shrink_until_ok` (lines 119-148)

The result records which artifact is returned (0 = the input file,
`i+1` = the file produced by the `i`-th ffmpeg invocation), its size, and
the log of `(max_h, crf)` parameters of every transcode invocation made,
in order.  `err` is the uncaught exception path of a failed invocation. -/

/-- The fixed attempt ladder (lines 124-129). -/
def attempts : List (ℕ × ℕ) :=
  [(MAX_HEIGHT_TARGET, 28), (MAX_HEIGHT_TARGET, 30), (360, 28), (360, 30)]

/-- Result of the shrink ladder. -/
inductive ShrinkResult where
  | ok (artifact : ℕ) (sizeBytes : ℕ) (log : List (ℕ × ℕ))
  | err (log : List (ℕ × ℕ))
deriving DecidableEq

/-- The `for max_h, crf in attempts:` loop (lines 135-148).  `fenv i` is
the outcome of the `i`-th ffmpeg invocation; `curArt`/`curSize` track the
`current` variable; `log` accumulates the invocations already made. -/
def shrinkLoop (fenv : ℕ → FfmpegOutcome) : List (ℕ × ℕ) → ℕ → ℕ → ℕ → List (ℕ × ℕ) → ShrinkResult
  | [], _, curArt, curSize, log => ShrinkResult.ok curArt curSize log
  | (max_h, crf) :: rest, i, _curArt, _curSize, log =>
      let o := fenv i
      let log2 := log ++ [(max_h, crf)]
      if o.returncode ≠ 0 ∨ o.dstExists = false then ShrinkResult.err log2
      else if human_mb o.dstSize ≤ (SAFE_LIMIT_MB : ℚ) then ShrinkResult.ok (i + 1) o.dstSize log2
      else shrinkLoop fenv rest (i + 1) (i + 1) o.dstSize log2

/-- Ladder `shrink_until_ok(filepath, ...)` where `sizeBytes` is the input
file's size: return unchanged at once when `human_mb(size) <= SAFE_LIMIT_MB`
(lines 131-133), otherwise run the ladder. -/
def shrink_until_ok (fenv : ℕ → FfmpegOutcome) (sizeBytes : ℕ) : ShrinkResult :=
  if human_mb sizeBytes ≤ (SAFE_LIMIT_MB : ℚ) then ShrinkResult.ok 0 sizeBytes []
  else shrinkLoop fenv attempts 0 0 sizeBytes []

/-! ## Delivery selector `send_file` (lines 150-170)

The selector decides among the size-exceeded reply (an early return, no
upload attempted), an inline video upload, and a document upload; the
caption is computed from the title (line 152).  Transport-level failures
of the chosen upload are caught inside `send_file` and do not change the
selection. -/

/-- The chosen outbound representation. -/
inductive Delivery where
  | tooBig
  | video (caption : String)
  | document (caption : String)
deriving DecidableEq

/-- Caption rule of line 152: the title wrapped in bold tags when non-empty, else a placeholder. -/
def caption_for (title : String) : String :=
  if title ≠ "" then "<b>" ++ title ++ "</b>" else "Video"

/-- The size-based selection of `send_file` (lines 155-167). -/
def send_file (sizeBytes : ℕ) (title : String) : Delivery :=
  let size_mb := human_mb sizeBytes
  let caption := caption_for title
  if (TELEGRAM_LIMIT_MB : ℚ) < size_mb then Delivery.tooBig
  else if size_mb ≤ (SEND_AS_VIDEO_THRESHOLD_MB : ℚ) then Delivery.video caption
  else Delivery.document caption

/-! ## Request handler `handle_url` (lines 192-262)

The oracle `ExtractOutcome` describes what the yt-dlp extraction does:
whether it raises, whether the resolved path exists afterwards (line 234),
and the downloaded file's size and title.  The handler's observable
behaviour is a trace: the terminal outcome, whether a permit was acquired,
whether the scratch directory was created, whether extraction was invoked,
the transcode invocations made, and the state of the scratch directory at
return (`none` = it does not exist).  `tempfile.TemporaryDirectory` (line
206) removes the directory and its whole contents on every exit of the
`with` block, including exceptional ones; the catch-all `except` (line
250) converts any pipeline exception into the failure reply. -/

/-- Oracle outcome of the extraction stage. -/
structure ExtractOutcome where
  raises : Bool
  pathExists : Bool
  sizeBytes : ℕ
  title : String

/-- Terminal outcome of one handled message. -/
inductive HandleOutcome where
  | rejected
  | delivered (d : Delivery)
  | failed
deriving DecidableEq

/-- Observable trace of `handle_url`. -/
structure HandleTrace where
  outcome : HandleOutcome
  permitAcquired : Bool
  scratchCreated : Bool
  extractionInvoked : Bool
  transcodeLog : List (ℕ × ℕ)
  scratchAtReturn : Option (List ℕ)
deriving DecidableEq

/-- The pipeline body run inside the `with TemporaryDirectory()` block
(lines 210-262): extraction, the conditional shrink (line 241), delivery;
exceptions are caught by the handler's `except` and become `failed`. -/
def pipeline_body (ext : ExtractOutcome) (fenv : ℕ → FfmpegOutcome) : HandleOutcome × List (ℕ × ℕ) :=
  if ext.raises then (HandleOutcome.failed, [])
  else if ext.pathExists = false then (HandleOutcome.failed, [])
  else if human_mb ext.sizeBytes ≤ (SAFE_LIMIT_MB : ℚ) then
    (HandleOutcome.delivered (send_file ext.sizeBytes ext.title), [])
  else
    match shrink_until_ok fenv ext.sizeBytes with
    | ShrinkResult.ok _ sz log => (HandleOutcome.delivered (send_file sz ext.title), log)
    | ShrinkResult.err log => (HandleOutcome.failed, log)

/-- Handler `handle_url` (lines 192-262): unsupported text is rejected before the
permit, the scratch directory, or extraction (lines 195-200); otherwise
the pipeline runs under the permit and the temporary directory, which is
removed on every exit path. -/
def handle_url (url : String) (ext : ExtractOutcome) (fenv : ℕ → FfmpegOutcome) : HandleTrace :=
  if is_supported_url url = false then
    { outcome := HandleOutcome.rejected,
      permitAcquired := false,
      scratchCreated := false,
      extractionInvoked := false,
      transcodeLog := [],
      scratchAtReturn := none }
  else
    let result := pipeline_body ext fenv
    { outcome := result.1,
      permitAcquired := true,
      scratchCreated := true,
      extractionInvoked := true,
      transcodeLog := result.2,
      scratchAtReturn := none }

/-! ## Admission gate (lines 33-34 and 202-204)

A transition system modelling `CONCURRENCY = asyncio.Semaphore(2)` and the
`async with CONCURRENCY:` block around the pipeline: a counting permit pool
(`avail` free permits) and one phase per job.  A job acquires a permit only
when one is free (the documented semantics of `asyncio.Semaphore.acquire`);
the `async with` form releases the permit when the block exits, whether the
pipeline succeeded or raised, recorded by the Boolean on `finished`. -/

/-- Phase of one job with respect to the admission gate. -/
inductive JobPhase where
  | waiting
  | holding
  | finished (ok : Bool)
deriving DecidableEq

/-- State of the gate: free permits plus the phase of each job. -/
structure GateState where
  avail : ℕ
  jobs : List JobPhase
deriving DecidableEq

/-- Initial state: `CONCURRENCY` permits free, `n` jobs all waiting. -/
def initGate (n : ℕ) : GateState :=
  { avail := CONCURRENCY, jobs := List.replicate n JobPhase.waiting }

/-- One step of the gate: a waiting job acquires a free permit, or a job
holding a permit finishes its pipeline (successfully or not) and releases
the permit unconditionally. -/
inductive GateStep : GateState → GateState → Prop where
  | acquire (s : GateState) (i : ℕ)
      (h : s.jobs[i]? = some JobPhase.waiting) (hp : 0 < s.avail) :
      GateStep s { avail := s.avail - 1, jobs := s.jobs.set i JobPhase.holding }
  | release (s : GateState) (i : ℕ) (ok : Bool)
      (h : s.jobs[i]? = some JobPhase.holding) :
      GateStep s { avail := s.avail + 1, jobs := s.jobs.set i (JobPhase.finished ok) }

/-- Number of jobs currently holding a permit. -/
def holdingCount (l : List JobPhase) : ℕ :=
  l.countP (fun p => decide (p = JobPhase.holding))

/-- States reachable from the initial state with `n` jobs. -/
def GateReachable (n : ℕ) (s : GateState) : Prop :=
  Relation.ReflTransGen GateStep (initGate n) s

/-- Permit-counting invariant: free permits plus held permits equal the
pool capacity. -/
def GateInv (s : GateState) : Prop :=
  s.avail + holdingCount s.jobs = CONCURRENCY

/-! ## Concrete witness inputs -/

/-- A 2000 MB file: measures above the safe threshold. -/
def bigBytes : ℕ := 2000 * 1024 * 1024

/-- A 10 MB file: measures below every threshold. -/
def smallBytes : ℕ := 10 * 1024 * 1024

/-- Transcode oracle: every invocation succeeds and produces a small file. -/
def fenvSmall : ℕ → FfmpegOutcome := fun _ => { returncode := 0, dstExists := true, dstSize := smallBytes }

/-- Transcode oracle: every invocation succeeds but the file stays large. -/
def fenvBig : ℕ → FfmpegOutcome := fun _ => { returncode := 0, dstExists := true, dstSize := bigBytes }

/-- Transcode oracle: the engine exits non-zero on every invocation. -/
def fenvFail : ℕ → FfmpegOutcome := fun _ => { returncode := 1, dstExists := true, dstSize := bigBytes }

/-- Extraction oracle: succeeds with a large file. -/
def extDemoBig : ExtractOutcome := { raises := false, pathExists := true, sizeBytes := bigBytes, title := "t" }

/-- A supported demo URL. -/
def urlDemo : String := "https://youtu.be/x"

/-- A string matching both URL patterns. -/
def urlBoth : String := "youtu.be/instagram.com/p/x"

/-- A gate state with both permits held and a third job waiting. -/
def gsDemo : GateState :=
  { avail := 0, jobs := [JobPhase.holding, JobPhase.holding, JobPhase.waiting] }

/-! ## Helper lemmas -/

/-- The cookies entry of the built options, in closed form. -/
theorem build_cookies_eq (tmp : String) (ig : Bool) (ck : String) (h : ℕ) :
    (build_ydl_opts tmp ig ck h).cookies = (if ig = true ∧ ck ≠ "" then some ck else none) := by
  cases ig <;> by_cases hc : ck = "" <;>
    simp [build_ydl_opts, hc, String.isEmpty_iff]

/-- Setting a waiting slot to holding increases the holding count by one. -/
theorem holdingCount_set_acquire (l : List JobPhase) (i : ℕ)
    (h : l[i]? = some JobPhase.waiting) :
    holdingCount (l.set i JobPhase.holding) = holdingCount l + 1 := by
  induction l generalizing i with
  | nil => simp at h
  | cons x xs ih =>
    cases i with
    | zero =>
      simp at h
      subst h
      simp [holdingCount, List.countP_cons]
    | succ n =>
      simp at h
      have hn := ih n h
      simp only [List.set, holdingCount, List.countP_cons] at hn ⊢
      omega

/-- Releasing a held slot decreases the holding count by one. -/
theorem holdingCount_set_release (l : List JobPhase) (i : ℕ) (ok : Bool)
    (h : l[i]? = some JobPhase.holding) :
    holdingCount l = holdingCount (l.set i (JobPhase.finished ok)) + 1 := by
  induction l generalizing i with
  | nil => simp at h
  | cons x xs ih =>
    cases i with
    | zero =>
      simp at h
      subst h
      simp [holdingCount, List.countP_cons]
    | succ n =>
      simp at h
      have hn := ih n h
      simp only [List.set, holdingCount, List.countP_cons] at hn ⊢
      omega

/-- Initially no job holds a permit. -/
theorem holdingCount_replicate (n : ℕ) :
    holdingCount (List.replicate n JobPhase.waiting) = 0 := by
  induction n with
  | zero => rfl
  | succ n ih =>
    simp only [List.replicate_succ, holdingCount, List.countP_cons] at ih ⊢
    simp [ih]

/-- The initial gate state satisfies the permit invariant. -/
theorem gateInv_init (n : ℕ) : GateInv (initGate n) := by
  simp [GateInv, initGate, holdingCount_replicate]

/-- One gate step preserves the permit invariant. -/
theorem gateInv_step {s s2 : GateState} (h : GateInv s) (hs : GateStep s s2) : GateInv s2 := by
  cases hs with
  | acquire i hi hp =>
    have hc := holdingCount_set_acquire s.jobs i hi
    unfold GateInv at h ⊢
    simp only at h ⊢
    omega
  | release i ok hi =>
    have hc := holdingCount_set_release s.jobs i ok hi
    unfold GateInv at h ⊢
    simp only at h ⊢
    omega

/-- Every reachable gate state satisfies the permit invariant. -/
theorem gateInv_reachable {n : ℕ} {s : GateState} (h : GateReachable n s) : GateInv s := by
  induction h with
  | refl => exact gateInv_init n
  | tail _hsteps hstep ih => exact gateInv_step ih hstep

/-! ## Claim theorems -/

/-- C2: for every artifact measuring at or below the safe threshold
(1900 MB), the shrink ladder returns the input artifact unchanged
(artifact 0, same size) and performs zero transcode invocations (empty
invocation log). -/
theorem shrink_small_identity (fenv : ℕ → FfmpegOutcome) (sizeBytes : ℕ)
    (h : human_mb sizeBytes ≤ (SAFE_LIMIT_MB : ℚ)) :
    shrink_until_ok fenv sizeBytes = ShrinkResult.ok 0 sizeBytes [] := by
  simp [shrink_until_ok, h]

/-- Witness for C2 at a concrete 10 MB artifact. -/
theorem shrink_small_identity_witness :
    human_mb smallBytes ≤ (SAFE_LIMIT_MB : ℚ) ∧
    shrink_until_ok fenvSmall smallBytes = ShrinkResult.ok 0 smallBytes [] := by
  have h : human_mb smallBytes ≤ (SAFE_LIMIT_MB : ℚ) := by
    norm_num [human_mb, roundHalfEven, smallBytes, SAFE_LIMIT_MB]
  exact ⟨h, shrink_small_identity fenvSmall smallBytes h⟩

/-- C5: the delivery selector yields exactly the size-exceeded reply (no
upload attempted) above the hard ceiling (2000 MB), an inline video with a
title-derived caption at or below 50 MB, and a generic document with the
same caption in between, size being measured by `human_mb`. -/
theorem send_file_selector_cases (sizeBytes : ℕ) (title : String) :
    ((TELEGRAM_LIMIT_MB : ℚ) < human_mb sizeBytes →
      send_file sizeBytes title = Delivery.tooBig) ∧
    (human_mb sizeBytes ≤ (SEND_AS_VIDEO_THRESHOLD_MB : ℚ) →
      send_file sizeBytes title = Delivery.video (caption_for title)) ∧
    ((SEND_AS_VIDEO_THRESHOLD_MB : ℚ) < human_mb sizeBytes →
      human_mb sizeBytes ≤ (TELEGRAM_LIMIT_MB : ℚ) →
      send_file sizeBytes title = Delivery.document (caption_for title)) := by
  refine ⟨?_, ?_, ?_⟩
  · intro h
    simp [send_file, h]
  · intro h
    have hn : ¬ (TELEGRAM_LIMIT_MB : ℚ) < human_mb sizeBytes := by
      have hlt : (SEND_AS_VIDEO_THRESHOLD_MB : ℚ) < (TELEGRAM_LIMIT_MB : ℚ) := by
        norm_num [SEND_AS_VIDEO_THRESHOLD_MB, TELEGRAM_LIMIT_MB]
      intro hcon
      linarith
    simp [send_file, hn, h]
  · intro h1 h2
    have hn : ¬ (TELEGRAM_LIMIT_MB : ℚ) < human_mb sizeBytes := not_lt.mpr h2
    have hn2 : ¬ human_mb sizeBytes ≤ (SEND_AS_VIDEO_THRESHOLD_MB : ℚ) := not_le.mpr h1
    simp [send_file, hn, hn2]

/-- Witness for C5 at 2500 MB, 10 MB and 100 MB (the spec's examples). -/
theorem send_file_selector_cases_witness :
    send_file (2500 * 1024 * 1024) ("t") = Delivery.tooBig ∧
    send_file (10 * 1024 * 1024) ("t") = Delivery.video (caption_for ("t")) ∧
    send_file (100 * 1024 * 1024) ("t") = Delivery.document (caption_for ("t")) := by
  refine ⟨?_, ?_, ?_⟩
  · exact (send_file_selector_cases (2500 * 1024 * 1024) ("t")).1
      (by norm_num [human_mb, roundHalfEven, TELEGRAM_LIMIT_MB])
  · exact (send_file_selector_cases (10 * 1024 * 1024) ("t")).2.1
      (by norm_num [human_mb, roundHalfEven, SEND_AS_VIDEO_THRESHOLD_MB])
  · exact (send_file_selector_cases (100 * 1024 * 1024) ("t")).2.2
      (by norm_num [human_mb, roundHalfEven, SEND_AS_VIDEO_THRESHOLD_MB])
      (by norm_num [human_mb, roundHalfEven, TELEGRAM_LIMIT_MB])

/-- C6: on every exit path of the request handler — rejection, delivery,
size-exceeded reply, or a caught pipeline exception — the scratch
directory together with every file in it no longer exists when the
handler returns. -/
theorem scratch_removed_on_return (url : String) (ext : ExtractOutcome)
    (fenv : ℕ → FfmpegOutcome) :
    (handle_url url ext fenv).scratchAtReturn = none := by
  unfold handle_url
  split <;> rfl

/-- C8: a message matching neither URL pattern gets the rejection reply
and the handler returns without acquiring a permit, creating a scratch
directory, invoking extraction, or transcoding. -/
theorem unsupported_url_rejected (url : String) (ext : ExtractOutcome)
    (fenv : ℕ → FfmpegOutcome) (h : is_supported_url url = false) :
    handle_url url ext fenv =
      { outcome := HandleOutcome.rejected,
        permitAcquired := false,
        scratchCreated := false,
        extractionInvoked := false,
        transcodeLog := [],
        scratchAtReturn := none } := by
  unfold handle_url
  rw [if_pos h]

/-- Witness for C8 at a concrete non-matching message text. -/
theorem unsupported_url_rejected_witness :
    is_supported_url ("hello there") = false ∧
    handle_url ("hello there") extDemoBig fenvSmall =
      { outcome := HandleOutcome.rejected,
        permitAcquired := false,
        scratchCreated := false,
        extractionInvoked := false,
        transcodeLog := [],
        scratchAtReturn := none } :=
  ⟨by decide, unsupported_url_rejected _ _ _ (by decide)⟩

/-- C9: the extraction options carry the cookie file exactly when the
job is an Instagram job and a non-empty credential path is configured;
with no configured path the options are still built, without cookies,
and a job whose platform is not Instagram never carries cookies. -/
theorem cookies_exactly_for_instagram :
    (∀ tmp ig ck h, (build_ydl_opts tmp ig ck h).cookies =
      (if ig = true ∧ ck ≠ "" then some ck else none)) ∧
    (∀ tmp ck h, (build_ydl_opts tmp false ck h).cookies = none) ∧
    (∀ tmp ig h, (build_ydl_opts tmp ig ("") h).cookies = none) ∧
    (∀ url tmp ck h, (build_ydl_opts tmp (from_instagram url) ck h).cookies =
      (if platform_name url = "Instagram" ∧ ck ≠ "" then some ck else none)) := by
  refine ⟨build_cookies_eq, ?_, ?_, ?_⟩
  · intro tmp ck h
    simp [build_cookies_eq]
  · intro tmp ig h
    simp [build_cookies_eq]
  · intro url tmp ck h
    rw [build_cookies_eq]
    unfold from_instagram
    by_cases hp : platform_name url = "Instagram" <;> simp [hp]

/-- C10: the admission predicate accepts exactly the URLs the classifier
maps to YouTube or Instagram, and a URL matching both patterns is
classified as YouTube. -/
theorem url_predicates_agree (url : String) :
    (is_supported_url url = true ↔
      (platform_name url = "YouTube" ∨ platform_name url = "Instagram")) ∧
    (YOUTUBE_RE_search url = true → INSTAGRAM_RE_search url = true →
      platform_name url = "YouTube") := by
  constructor
  · unfold is_supported_url platform_name
    cases hy : YOUTUBE_RE_search url <;> cases hi : INSTAGRAM_RE_search url <;> simp
  · intro hy _hi
    unfold platform_name
    simp [hy]

/-- Witness for C10 at a string matching both patterns. -/
theorem url_predicates_agree_witness :
    YOUTUBE_RE_search urlBoth = true ∧ INSTAGRAM_RE_search urlBoth = true ∧
    platform_name urlBoth = "YouTube" :=
  ⟨by decide, by decide, (url_predicates_agree urlBoth).2 (by decide) (by decide)⟩

/-- C1: for an artifact measuring above the safe threshold, if the first
`k` transcode invocations succeed with outputs still above the threshold
and invocation `k` succeeds with an output at or below it, the ladder
invokes the adapter exactly on the first `k+1` ladder entries, in the
declared order, and returns invocation `k`'s artifact: no invocation
happens after the first sufficiently small output. -/
theorem shrink_ladder_first_success (fenv : ℕ → FfmpegOutcome) (size0 k : ℕ)
    (hbig : ¬ human_mb size0 ≤ (SAFE_LIMIT_MB : ℚ))
    (hk : k < 4)
    (hsucc : ∀ j, j ≤ k → (fenv j).returncode = 0 ∧ (fenv j).dstExists = true)
    (hover : ∀ j, j < k → ¬ human_mb (fenv j).dstSize ≤ (SAFE_LIMIT_MB : ℚ))
    (hstop : human_mb (fenv k).dstSize ≤ (SAFE_LIMIT_MB : ℚ)) :
    shrink_until_ok fenv size0 =
      ShrinkResult.ok (k + 1) (fenv k).dstSize (attempts.take (k + 1)) := by
  interval_cases k
  · obtain ⟨r0, e0⟩ := hsucc 0 (by omega)
    simp [shrink_until_ok, shrinkLoop, attempts, hbig, r0, e0, hstop]
  · obtain ⟨r0, e0⟩ := hsucc 0 (by omega)
    obtain ⟨r1, e1⟩ := hsucc 1 (by omega)
    have o0 := hover 0 (by omega)
    simp [shrink_until_ok, shrinkLoop, attempts, hbig, r0, e0, o0, r1, e1, hstop]
  · obtain ⟨r0, e0⟩ := hsucc 0 (by omega)
    obtain ⟨r1, e1⟩ := hsucc 1 (by omega)
    obtain ⟨r2, e2⟩ := hsucc 2 (by omega)
    have o0 := hover 0 (by omega)
    have o1 := hover 1 (by omega)
    simp [shrink_until_ok, shrinkLoop, attempts, hbig, r0, e0, o0, r1, e1, o1, r2, e2, hstop]
  · obtain ⟨r0, e0⟩ := hsucc 0 (by omega)
    obtain ⟨r1, e1⟩ := hsucc 1 (by omega)
    obtain ⟨r2, e2⟩ := hsucc 2 (by omega)
    obtain ⟨r3, e3⟩ := hsucc 3 (by omega)
    have o0 := hover 0 (by omega)
    have o1 := hover 1 (by omega)
    have o2 := hover 2 (by omega)
    simp [shrink_until_ok, shrinkLoop, attempts, hbig, r0, e0, o0, r1, e1, o1, r2, e2, o2,
      r3, e3, hstop]

/-- Witness for C1: a 2000 MB artifact and an engine whose first attempt
already produces a 10 MB file; the ladder stops after one invocation. -/
theorem shrink_ladder_first_success_witness :
    shrink_until_ok fenvSmall bigBytes =
      ShrinkResult.ok 1 smallBytes [(MAX_HEIGHT_TARGET, 28)] := by
  have hbig : ¬ human_mb bigBytes ≤ (SAFE_LIMIT_MB : ℚ) := by
    norm_num [human_mb, roundHalfEven, bigBytes, SAFE_LIMIT_MB]
  have hstop : human_mb (fenvSmall 0).dstSize ≤ (SAFE_LIMIT_MB : ℚ) := by
    norm_num [human_mb, roundHalfEven, fenvSmall, smallBytes, SAFE_LIMIT_MB]
  exact shrink_ladder_first_success fenvSmall bigBytes 0 hbig (by omega)
    (fun j _ => ⟨rfl, rfl⟩) (fun j hj => absurd hj (by omega)) hstop

/-- C3: if all four invocations succeed but every output still measures
above the safe threshold, the ladder returns the fourth attempt's
artifact (number 4 — not the input 0 nor an earlier attempt's 1-3), with
the full four-entry invocation log. -/
theorem shrink_ladder_exhausted (fenv : ℕ → FfmpegOutcome) (size0 : ℕ)
    (hbig : ¬ human_mb size0 ≤ (SAFE_LIMIT_MB : ℚ))
    (hsucc : ∀ j, j < 4 → (fenv j).returncode = 0 ∧ (fenv j).dstExists = true)
    (hover : ∀ j, j < 4 → ¬ human_mb (fenv j).dstSize ≤ (SAFE_LIMIT_MB : ℚ)) :
    shrink_until_ok fenv size0 = ShrinkResult.ok 4 (fenv 3).dstSize attempts := by
  obtain ⟨r0, e0⟩ := hsucc 0 (by omega)
  obtain ⟨r1, e1⟩ := hsucc 1 (by omega)
  obtain ⟨r2, e2⟩ := hsucc 2 (by omega)
  obtain ⟨r3, e3⟩ := hsucc 3 (by omega)
  have o0 := hover 0 (by omega)
  have o1 := hover 1 (by omega)
  have o2 := hover 2 (by omega)
  have o3 := hover 3 (by omega)
  simp [shrink_until_ok, shrinkLoop, attempts, hbig, r0, e0, o0, r1, e1, o1, r2, e2, o2,
    r3, e3, o3]

/-- Witness for C3: every attempt succeeds but stays at 2000 MB. -/
theorem shrink_ladder_exhausted_witness :
    shrink_until_ok fenvBig bigBytes = ShrinkResult.ok 4 bigBytes attempts := by
  have hbig : ¬ human_mb bigBytes ≤ (SAFE_LIMIT_MB : ℚ) := by
    norm_num [human_mb, roundHalfEven, bigBytes, SAFE_LIMIT_MB]
  exact shrink_ladder_exhausted fenvBig bigBytes hbig
    (fun j _ => ⟨rfl, rfl⟩) (fun j _ => hbig)

/-- C4: the transcode adapter errors exactly when the engine exits
non-zero or the destination file is missing; such a failure mid-ladder
propagates as the `err` result after exactly the entries up to and
including the failing one (no remaining entry is attempted), and it
makes the whole job fail. -/
theorem transcode_failure_aborts :
    (∀ o : FfmpegOutcome,
      ffmpeg_compress o = Except.error () ↔ (o.returncode ≠ 0 ∨ o.dstExists = false)) ∧
    (∀ (fenv : ℕ → FfmpegOutcome) (size0 k : ℕ),
      ¬ human_mb size0 ≤ (SAFE_LIMIT_MB : ℚ) → k < 4 →
      (∀ j, j < k → (fenv j).returncode = 0 ∧ (fenv j).dstExists = true ∧
        ¬ human_mb (fenv j).dstSize ≤ (SAFE_LIMIT_MB : ℚ)) →
      ((fenv k).returncode ≠ 0 ∨ (fenv k).dstExists = false) →
      shrink_until_ok fenv size0 = ShrinkResult.err (attempts.take (k + 1))) ∧
    (∀ (url : String) (ext : ExtractOutcome) (fenv : ℕ → FfmpegOutcome) (log : List (ℕ × ℕ)),
      ext.raises = false → ext.pathExists = true →
      ¬ human_mb ext.sizeBytes ≤ (SAFE_LIMIT_MB : ℚ) →
      shrink_until_ok fenv ext.sizeBytes = ShrinkResult.err log →
      is_supported_url url = true →
      (handle_url url ext fenv).outcome = HandleOutcome.failed ∧
      (handle_url url ext fenv).transcodeLog = log) := by
  refine ⟨?_, ?_, ?_⟩
  · intro o
    unfold ffmpeg_compress
    by_cases hc : (o.returncode ≠ 0 ∨ o.dstExists = false)
    · rw [if_pos hc]
      simp [hc]
    · rw [if_neg hc]
      simp [hc]
  · intro fenv size0 k hbig hk hpre hfail
    interval_cases k
    · rcases hfail with hrc | hex
      · simp [shrink_until_ok, shrinkLoop, attempts, hbig, hrc]
      · simp [shrink_until_ok, shrinkLoop, attempts, hbig, hex]
    · obtain ⟨r0, e0, o0⟩ := hpre 0 (by omega)
      rcases hfail with hrc | hex
      · simp [shrink_until_ok, shrinkLoop, attempts, hbig, r0, e0, o0, hrc]
      · simp [shrink_until_ok, shrinkLoop, attempts, hbig, r0, e0, o0, hex]
    · obtain ⟨r0, e0, o0⟩ := hpre 0 (by omega)
      obtain ⟨r1, e1, o1⟩ := hpre 1 (by omega)
      rcases hfail with hrc | hex
      · simp [shrink_until_ok, shrinkLoop, attempts, hbig, r0, e0, o0, r1, e1, o1, hrc]
      · simp [shrink_until_ok, shrinkLoop, attempts, hbig, r0, e0, o0, r1, e1, o1, hex]
    · obtain ⟨r0, e0, o0⟩ := hpre 0 (by omega)
      obtain ⟨r1, e1, o1⟩ := hpre 1 (by omega)
      obtain ⟨r2, e2, o2⟩ := hpre 2 (by omega)
      rcases hfail with hrc | hex
      · simp [shrink_until_ok, shrinkLoop, attempts, hbig, r0, e0, o0, r1, e1, o1,
          r2, e2, o2, hrc]
      · simp [shrink_until_ok, shrinkLoop, attempts, hbig, r0, e0, o0, r1, e1, o1,
          r2, e2, o2, hex]
  · intro url ext fenv log hnr hpe hbig hshr hsup
    unfold handle_url
    rw [if_neg (by simp [hsup])]
    simp [pipeline_body, hnr, hpe, hbig, hshr]

/-- Witness for C4: an engine exiting with code 1 on a 2000 MB artifact
fails the adapter, stops the ladder after one invocation, and fails the
whole job. -/
theorem transcode_failure_aborts_witness :
    ffmpeg_compress { returncode := 1, dstExists := true, dstSize := 0 } = Except.error () ∧
    shrink_until_ok fenvFail bigBytes = ShrinkResult.err [(MAX_HEIGHT_TARGET, 28)] ∧
    (handle_url urlDemo extDemoBig fenvFail).outcome = HandleOutcome.failed := by
  have hbig : ¬ human_mb bigBytes ≤ (SAFE_LIMIT_MB : ℚ) := by
    norm_num [human_mb, roundHalfEven, bigBytes, SAFE_LIMIT_MB]
  have hlad : shrink_until_ok fenvFail bigBytes = ShrinkResult.err (attempts.take (0 + 1)) :=
    transcode_failure_aborts.2.1 fenvFail bigBytes 0 hbig (by omega)
      (fun j hj => absurd hj (by omega)) (Or.inl (by norm_num [fenvFail]))
  refine ⟨(transcode_failure_aborts.1 _).mpr (Or.inl (by norm_num)), hlad, ?_⟩
  exact (transcode_failure_aborts.2.2 urlDemo extDemoBig fenvFail (attempts.take (0 + 1))
    rfl rfl hbig hlad (by decide)).1

/-- C7: the admission gate is a counting permit pool of capacity 2: in
every reachable state at most two jobs hold permits; while two are held,
no step lets a waiting job start holding (it must wait for a release);
and a job holding a permit can always release it, for either pipeline
outcome. -/
theorem admission_gate_capacity :
    CONCURRENCY = 2 ∧
    (∀ n s, GateReachable n s → holdingCount s.jobs ≤ 2) ∧
    (∀ n s, GateReachable n s → holdingCount s.jobs = 2 →
      ∀ s2, GateStep s s2 → ∀ i : ℕ, s.jobs[i]? = some JobPhase.waiting →
        ¬ s2.jobs[i]? = some JobPhase.holding) ∧
    (∀ (s : GateState) (i : ℕ) (ok : Bool), s.jobs[i]? = some JobPhase.holding →
      GateStep s { avail := s.avail + 1, jobs := s.jobs.set i (JobPhase.finished ok) }) := by
  have hC : CONCURRENCY = 2 := rfl
  refine ⟨rfl, ?_, ?_, ?_⟩
  · intro n s h
    have hinv := gateInv_reachable h
    unfold GateInv at hinv
    omega
  · intro n s h h2 s2 hstep i hw
    have hinv := gateInv_reachable h
    unfold GateInv at hinv
    cases hstep with
    | acquire j hj hp => omega
    | release j ok hj =>
      intro hcon
      by_cases hij : j = i
      · subst hij
        have := hj.symm.trans hw
        simp at this
      · rw [List.getElem?_set_ne hij] at hcon
        have := hw.symm.trans hcon
        simp at this
  · intro s i ok h
    exact GateStep.release s i ok h

/-- Witness for C7: from three waiting jobs, two acquires reach the
state with both permits held; there the bound holds and the release step
is available. -/
theorem admission_gate_capacity_witness :
    holdingCount gsDemo.jobs ≤ 2 ∧
    GateStep gsDemo { avail := gsDemo.avail + 1,
                      jobs := gsDemo.jobs.set 0 (JobPhase.finished false) } := by
  have h1 : GateStep (initGate 3)
      { avail := 1, jobs := [JobPhase.holding, JobPhase.waiting, JobPhase.waiting] } :=
    GateStep.acquire (initGate 3) 0 rfl (by decide)
  have h2 : GateStep
      { avail := 1, jobs := [JobPhase.holding, JobPhase.waiting, JobPhase.waiting] }
      gsDemo :=
    GateStep.acquire
      { avail := 1, jobs := [JobPhase.holding, JobPhase.waiting, JobPhase.waiting] }
      1 rfl (by decide)
  have hreach : GateReachable 3 gsDemo :=
    Relation.ReflTransGen.tail (Relation.ReflTransGen.tail Relation.ReflTransGen.refl h1) h2
  exact ⟨admission_gate_capacity.2.1 3 gsDemo hreach,
    admission_gate_capacity.2.2.2 gsDemo 0 false rfl⟩

end InstaSave
